import Mathlib

/-!
Shallow embedding of the awx-deployer orchestration core: the dynamic-client
resource accessor (internal/k8s/kubernetes.go), the manifest applier
(internal/deploy/verifier.go, static-directory variant), the readiness waiter
and the deployment verifier (internal/deploy/waiter.go), and the operator
installer pod poll (internal/operator).  Remote calls are modelled by an
explicit store with Kubernetes create/get/update semantics plus injectable
per-call faults, and polling loops by fuel-indexed recursion over a discrete
clock with a deadline, mirroring the ticker/context.Done selection of the
source.
-/

/-- Error classes of the remote Kubernetes API that the client code tells
apart (errors.IsAlreadyExists, errors.IsNotFound in
internal/k8s/kubernetes.go); transient stands for any other
communication or server fault. -/
inductive KError where
  | alreadyExists
  | notFound
  | conflict
  | transient (msg : String)
deriving DecidableEq, Repr

/-- A remote object as the dynamic client sees it: a name, an opaque spec
payload, and the server-assigned optimistic-concurrency version token
(resourceVersion). -/
structure KObject where
  name : String
  spec : String
  resourceVersion : Nat
deriving DecidableEq, Repr

/-- One resource collection of the remote store (the dynamic resource
interface already fixed to a group/version/resource and namespace, as built
in KubernetesClient.Apply lines 95-100): the stored objects plus the
counter from which the server assigns fresh version tokens. -/
structure Store where
  objs : List KObject
  nextVersion : Nat
deriving DecidableEq, Repr

/-- Server-side lookup by object name. -/
def Store.lookup (s : Store) (n : String) : Option KObject :=
  s.objs.find? (fun o => o.name == n)

/-- The listed objects stripped of their version tokens: the observable set
of remote objects (name and spec) that idempotence speaks about. -/
def Store.objectSet (s : Store) : List (String × String) :=
  s.objs.map (fun o => (o.name, o.spec))

/-- Names of the stored objects are pairwise distinct (the server never
holds two objects of one name in one collection). -/
def Store.wellFormed (s : Store) : Prop :=
  (s.objs.map KObject.name).Nodup

instance (s : Store) : Decidable s.wellFormed := by
  unfold Store.wellFormed
  infer_instance

/-- Per-call fault injection: some e makes the remote call fail with e
before reaching the store (network/auth faults the Go error values carry);
none lets the call run against the store semantics. -/
structure ApplyEnv where
  createFault : Option KError
  getFault : Option KError
  updateFault : Option KError
deriving DecidableEq, Repr

/-- The fault-free environment: every remote call reaches the server. -/
def noFaults : ApplyEnv := ⟨none, none, none⟩

/-- resource.Create of the dynamic client: fails with alreadyExists when an
object of that name is present, otherwise stores the object with a fresh
server-assigned version token. -/
def createCall (fault : Option KError) (s : Store) (o : KObject) :
    Except KError Store :=
  match fault with
  | some e => .error e
  | none =>
    if (s.lookup o.name).isSome then .error .alreadyExists
    else .ok { objs := s.objs ++ [{ o with resourceVersion := s.nextVersion }],
               nextVersion := s.nextVersion + 1 }

/-- resource.Get of the dynamic client: returns the stored object or a
notFound error. -/
def getCall (fault : Option KError) (s : Store) (n : String) :
    Except KError KObject :=
  match fault with
  | some e => .error e
  | none =>
    match s.lookup n with
    | some o => .ok o
    | none => .error .notFound

/-- resource.Update of the dynamic client: fails with notFound for an absent
object and with conflict for a stale version token; otherwise replaces the
stored object, assigning a fresh version token. -/
def updateCall (fault : Option KError) (s : Store) (o : KObject) :
    Except KError Store :=
  match fault with
  | some e => .error e
  | none =>
    match s.lookup o.name with
    | none => .error .notFound
    | some cur =>
      if o.resourceVersion = cur.resourceVersion then
        .ok { objs := s.objs.map (fun x =>
                if x.name == o.name
                then { o with resourceVersion := s.nextVersion } else x),
              nextVersion := s.nextVersion + 1 }
      else .error .conflict

/-- Which branch of KubernetesClient.Apply completed the call. -/
inductive ApplyBranch where
  | createdNew
  | updatedExisting
deriving DecidableEq, Repr

/-- KubernetesClient.Apply, lines 102-117 of internal/k8s/kubernetes.go:
attempt Create; when it fails with alreadyExists, Get the existing object,
merge its resourceVersion into the document and Update; any other create
failure, a failed Get, or a failed Update is returned as an error. -/
def KubernetesClient.Apply (env : ApplyEnv) (s : Store) (doc : KObject) :
    Except String (Store × ApplyBranch) :=
  match createCall env.createFault s doc with
  | .ok s2 => .ok (s2, .createdNew)
  | .error createErr =>
    if createErr = .alreadyExists then
      match getCall env.getFault s doc.name with
      | .error _ => .error ("failed to get existing resource " ++ doc.name)
      | .ok existingObj =>
        match updateCall env.updateFault s
            { doc with resourceVersion := existingObj.resourceVersion } with
        | .error _ => .error ("failed to update resource " ++ doc.name)
        | .ok s3 => .ok (s3, .updatedExisting)
    else .error ("failed to create resource " ++ doc.name)

/-- The store Apply leaves behind, when it succeeds. -/
def KubernetesClient.applyState (env : ApplyEnv) (s : Store) (doc : KObject) :
    Option Store :=
  match KubernetesClient.Apply env s doc with
  | .ok (s2, _) => some s2
  | .error _ => none

/-- The branch Apply took, when it succeeds. -/
def KubernetesClient.applyBranch (env : ApplyEnv) (s : Store) (doc : KObject) :
    Option ApplyBranch :=
  match KubernetesClient.Apply env s doc with
  | .ok (_, b) => some b
  | .error _ => none

/-- True on a successful result. -/
def okB {ε α : Type} : Except ε α → Bool
  | .ok _ => true
  | .error _ => false

/-- Success condition of apply as the spec words it: the create succeeds, or
the create fails with already-exists and the re-read of the version token
and the subsequent update (with the token merged in) both succeed. -/
def KubernetesClient.applyContractOk (env : ApplyEnv) (s : Store)
    (doc : KObject) : Bool :=
  match createCall env.createFault s doc with
  | .ok _ => true
  | .error ce =>
    decide (ce = KError.alreadyExists) &&
      (match getCall env.getFault s doc.name with
       | .error _ => false
       | .ok existingObj =>
         okB (updateCall env.updateFault s
           { doc with resourceVersion := existingObj.resourceVersion }))

/-- A group/version/kind as decoded from a manifest document. -/
structure GVK where
  group : String
  version : String
  kind : String
deriving DecidableEq, Repr

/-- A group/version/resource, the plural-resource identity used for API
calls. -/
structure GVR where
  group : String
  version : String
  resource : String
deriving DecidableEq, Repr

/-- One entry of a discovery response: an exposed kind and its plural
resource name. -/
structure APIResource where
  kind : String
  name : String
deriving DecidableEq, Repr

/-- GroupVersion().String() of apimachinery: "group/version", or just
"version" for the core group. -/
def GVK.groupVersionKey (gvk : GVK) : String :=
  if gvk.group = "" then gvk.version else gvk.group ++ "/" ++ gvk.version

/-- KubernetesClient.gvrForGVK, lines 122-139 of internal/k8s/kubernetes.go:
issues ServerResourcesForGroupVersion and scans the response for the first
resource whose Kind matches.  The discovery surface is the function disc;
the request log records every remote discovery request issued, in order
(the source method holds no cache, so each invocation appends one
request). -/
def KubernetesClient.gvrForGVK
    (disc : String → Except KError (List APIResource))
    (reqLog : List String) (gvk : GVK) :
    List String × Except String GVR :=
  let reqLog2 := reqLog ++ [gvk.groupVersionKey]
  match disc gvk.groupVersionKey with
  | .error _ => (reqLog2, .error ("discovery request failed for " ++
      gvk.groupVersionKey))
  | .ok resources =>
    match resources.find? (fun r => r.kind == gvk.kind) with
    | some r => (reqLog2, .ok ⟨gvk.group, gvk.version, r.name⟩)
    | none => (reqLog2, .error ("resource not found for GVK " ++
        gvk.groupVersionKey ++ ", Kind=" ++ gvk.kind))

/-- Two successive resolutions of the same group/version/kind against one
client, the second started on the request log the first left behind. -/
def KubernetesClient.gvrForGVKTwice
    (disc : String → Except KError (List APIResource)) (gvk : GVK) :
    List String × Except String GVR :=
  let first := KubernetesClient.gvrForGVK disc [] gvk
  KubernetesClient.gvrForGVK disc first.1 gvk

/-- The namespace actually targeted by KubernetesClient.Apply, lines 87-93
of internal/k8s/kubernetes.go: an empty document namespace is kept (and the
call made cluster-scoped) only for the plural resources "namespaces" and
"persistentvolumes"; every other resource falls back to the literal
namespace "default". -/
def KubernetesClient.applyTargetNamespace (ns resource : String) : String :=
  if ns = "" then
    if resource ≠ "namespaces" ∧ resource ≠ "persistentvolumes" then "default"
    else ns
  else ns

/-- Whether Apply addresses the cluster-scoped resource interface (lines
95-100: the Namespace(...) wrapper is skipped exactly when the namespace is
still empty after the fallback). -/
def KubernetesClient.targetsClusterScoped (ns resource : String) : Bool :=
  KubernetesClient.applyTargetNamespace ns resource == ""

/-- Lexicographic comparison of character sequences by code point, the
order Go sort.Strings establishes on the manifest file names. -/
def charListLe : List Char → List Char → Bool
  | [], _ => true
  | _ :: _, [] => false
  | x :: xs, y :: ys =>
    if x.toNat < y.toNat then true
    else if y.toNat < x.toNat then false
    else charListLe xs ys

/-- Lexicographic order on file names. -/
def ManifestApplier.fileLe (a b : String) : Bool :=
  charListLe a.data b.data

/-- sort.Strings of the Go standard library: lexicographic ascending sort
of the discovered manifest file names. -/
def ManifestApplier.sortFiles (files : List String) : List String :=
  List.insertionSort (fun a b => ManifestApplier.fileLe a b = true) files

/-- The per-file loop of ManifestApplier.Apply, lines 570-575 of
internal/deploy/verifier.go: apply each file in order, abort on the first
failure with an error naming the failing file.  Besides the result it
returns the trace of files actually submitted to the accessor, in order. -/
def ManifestApplier.applySeq (applyFile : String → Except String Unit) :
    List String → Except String Unit × List String
  | [] => (.ok (), [])
  | f :: rest =>
    match applyFile f with
    | .error e =>
      (.error ("failed to apply manifest " ++ f ++ ": " ++ e), [f])
    | .ok _ =>
      let r := ManifestApplier.applySeq applyFile rest
      (r.1, f :: r.2)

/-- ManifestApplier.Apply, lines 546-579 of internal/deploy/verifier.go
(static-directory variant): fail when no manifest file was discovered,
otherwise sort the file names and apply them one by one, fail-fast. -/
def ManifestApplier.Apply (applyFile : String → Except String Unit)
    (files : List String) : Except String Unit × List String :=
  if files.isEmpty then (.error "no YAML manifest files found", [])
  else ManifestApplier.applySeq applyFile (ManifestApplier.sortFiles files)

/-- The identity every existence check passes to
KubernetesClient.ResourceExists: group, version, plural resource, object
name, namespace. -/
structure ResourceId where
  group : String
  version : String
  resource : String
  name : String
  ns : String
deriving DecidableEq, Repr

/-- The remote cluster as the polling loops observe it: the outcome of
ResourceExists for an identity and of GetPodStatus for a label selector and
namespace, at a given instant of the discrete clock (seconds since the
sub-wait chain started).  An error value is a transient API fault of that
tick. -/
structure ClusterEnv where
  resourceExists : ResourceId → Nat → Except KError Bool
  podStatus : String → String → Nat → Except KError String

/-- strings.Contains of the Go standard library, on the character level. -/
def containsSub (s pat : String) : Bool :=
  decide (pat.data <:+: s.data)

/-- Database-tier deployment name derived in DeploymentWaiter, line 92 of
internal/deploy/waiter.go. -/
def DeploymentWaiter.postgresDeployment (w : String) : String :=
  w ++ "-postgres-15"

/-- Front-end-tier deployment name derived in DeploymentWaiter, line 137. -/
def DeploymentWaiter.webDeployment (w : String) : String :=
  w ++ "-web"

/-- Background-worker-tier deployment name derived in DeploymentWaiter,
line 182. -/
def DeploymentWaiter.taskDeployment (w : String) : String :=
  w ++ "-task"

/-- Timeout message of the primary-resource sub-wait (line 69). -/
def instanceTimeoutMsg : String := "timeout waiting for AWX instance"

/-- Timeout message of the database sub-wait (line 100). -/
def postgresTimeoutMsg : String := "timeout waiting for PostgreSQL"

/-- Timeout message of the front-end sub-wait (line 145). -/
def webTimeoutMsg : String := "timeout waiting for AWX web"

/-- Timeout message of the background-worker sub-wait (line 190). -/
def taskTimeoutMsg : String := "timeout waiting for AWX task manager"

/-- DeploymentWaiter.waitForAWXInstance, lines 60-85: a 30-second ticker
against the shared deadline; on each tick an existence check of the primary
custom resource; a check error is logged and retried, success ends the
loop.  The loop blocks on the ticker, so the first check happens a full
interval after entry.  Deadline expiry (the context firing before the next
tick) yields the timeout error; the fuel argument only bounds the
recursion and is chosen large enough at the call site. -/
def DeploymentWaiter.waitForAWXInstanceLoop (env : ClusterEnv) (w ns : String)
    (deadline : Nat) : Nat → Nat → Except String Nat
  | 0, _ => .error instanceTimeoutMsg
  | fuel + 1, t =>
    if deadline ≤ t + 30 then .error instanceTimeoutMsg
    else
      match env.resourceExists ⟨"awx.ansible.com", "v1beta1", "awxs", w, ns⟩
          (t + 30) with
      | .error _ =>
        DeploymentWaiter.waitForAWXInstanceLoop env w ns deadline fuel (t + 30)
      | .ok true => .ok (t + 30)
      | .ok false =>
        DeploymentWaiter.waitForAWXInstanceLoop env w ns deadline fuel (t + 30)

/-- DeploymentWaiter.waitForPostgreSQL, lines 88-130: each tick first checks
the derived deployment for existence, then the pod phase by label selector;
a transient error or a not-yet-ready answer on either call waits for the
next tick; the phase check succeeds when the status contains "Running". -/
def DeploymentWaiter.waitForPostgreSQLLoop (env : ClusterEnv) (w ns : String)
    (deadline : Nat) : Nat → Nat → Except String Nat
  | 0, _ => .error postgresTimeoutMsg
  | fuel + 1, t =>
    if deadline ≤ t + 30 then .error postgresTimeoutMsg
    else
      match env.resourceExists ⟨"apps", "v1", "deployments",
          DeploymentWaiter.postgresDeployment w, ns⟩ (t + 30) with
      | .error _ =>
        DeploymentWaiter.waitForPostgreSQLLoop env w ns deadline fuel (t + 30)
      | .ok false =>
        DeploymentWaiter.waitForPostgreSQLLoop env w ns deadline fuel (t + 30)
      | .ok true =>
        match env.podStatus
            ("app.kubernetes.io/name=postgres,app.kubernetes.io/instance=" ++ w)
            ns (t + 30) with
        | .error _ =>
          DeploymentWaiter.waitForPostgreSQLLoop env w ns deadline fuel (t + 30)
        | .ok status =>
          if containsSub status "Running" then .ok (t + 30)
          else DeploymentWaiter.waitForPostgreSQLLoop env w ns deadline fuel
            (t + 30)

/-- DeploymentWaiter.waitForAWXWeb, lines 133-175: same pattern as the
database sub-wait with the front-end deployment name and selector. -/
def DeploymentWaiter.waitForAWXWebLoop (env : ClusterEnv) (w ns : String)
    (deadline : Nat) : Nat → Nat → Except String Nat
  | 0, _ => .error webTimeoutMsg
  | fuel + 1, t =>
    if deadline ≤ t + 30 then .error webTimeoutMsg
    else
      match env.resourceExists ⟨"apps", "v1", "deployments",
          DeploymentWaiter.webDeployment w, ns⟩ (t + 30) with
      | .error _ =>
        DeploymentWaiter.waitForAWXWebLoop env w ns deadline fuel (t + 30)
      | .ok false =>
        DeploymentWaiter.waitForAWXWebLoop env w ns deadline fuel (t + 30)
      | .ok true =>
        match env.podStatus
            ("app.kubernetes.io/name=" ++ w ++ ",app.kubernetes.io/component=web")
            ns (t + 30) with
        | .error _ =>
          DeploymentWaiter.waitForAWXWebLoop env w ns deadline fuel (t + 30)
        | .ok status =>
          if containsSub status "Running" then .ok (t + 30)
          else DeploymentWaiter.waitForAWXWebLoop env w ns deadline fuel (t + 30)

/-- DeploymentWaiter.waitForAWXTask, lines 178-220: same pattern with the
background-worker deployment name and selector. -/
def DeploymentWaiter.waitForAWXTaskLoop (env : ClusterEnv) (w ns : String)
    (deadline : Nat) : Nat → Nat → Except String Nat
  | 0, _ => .error taskTimeoutMsg
  | fuel + 1, t =>
    if deadline ≤ t + 30 then .error taskTimeoutMsg
    else
      match env.resourceExists ⟨"apps", "v1", "deployments",
          DeploymentWaiter.taskDeployment w, ns⟩ (t + 30) with
      | .error _ =>
        DeploymentWaiter.waitForAWXTaskLoop env w ns deadline fuel (t + 30)
      | .ok false =>
        DeploymentWaiter.waitForAWXTaskLoop env w ns deadline fuel (t + 30)
      | .ok true =>
        match env.podStatus
            ("app.kubernetes.io/name=" ++ w ++ ",app.kubernetes.io/component=task")
            ns (t + 30) with
        | .error _ =>
          DeploymentWaiter.waitForAWXTaskLoop env w ns deadline fuel (t + 30)
        | .ok status =>
          if containsSub status "Running" then .ok (t + 30)
          else DeploymentWaiter.waitForAWXTaskLoop env w ns deadline fuel (t + 30)

/-- The primary-resource sub-wait entered at local time t under the shared
deadline (fuel chosen to outlast the deadline). -/
def DeploymentWaiter.waitForAWXInstance (env : ClusterEnv) (w ns : String)
    (deadline t : Nat) : Except String Nat :=
  DeploymentWaiter.waitForAWXInstanceLoop env w ns deadline (deadline + 1) t

/-- The database sub-wait entered at local time t under the shared
deadline. -/
def DeploymentWaiter.waitForPostgreSQL (env : ClusterEnv) (w ns : String)
    (deadline t : Nat) : Except String Nat :=
  DeploymentWaiter.waitForPostgreSQLLoop env w ns deadline (deadline + 1) t

/-- The front-end sub-wait entered at local time t under the shared
deadline. -/
def DeploymentWaiter.waitForAWXWeb (env : ClusterEnv) (w ns : String)
    (deadline t : Nat) : Except String Nat :=
  DeploymentWaiter.waitForAWXWebLoop env w ns deadline (deadline + 1) t

/-- The background-worker sub-wait entered at local time t under the shared
deadline. -/
def DeploymentWaiter.waitForAWXTask (env : ClusterEnv) (w ns : String)
    (deadline t : Nat) : Except String Nat :=
  DeploymentWaiter.waitForAWXTaskLoop env w ns deadline (deadline + 1) t

/-- DeploymentWaiter.WaitForReady, lines 29-57 of internal/deploy/waiter.go:
one deadline context derived from the timeout, then the four sub-waits
strictly in sequence, each started at the instant the previous one
succeeded, each wrapping its timeout error with the tier name.  Returns the
instant the last sub-wait succeeded. -/
def DeploymentWaiter.WaitForReady (env : ClusterEnv) (w ns : String)
    (timeout : Nat) : Except String Nat :=
  match DeploymentWaiter.waitForAWXInstance env w ns timeout 0 with
  | .error e => .error ("AWX instance not ready: " ++ e)
  | .ok t1 =>
    match DeploymentWaiter.waitForPostgreSQL env w ns timeout t1 with
    | .error e => .error ("PostgreSQL not ready: " ++ e)
    | .ok t2 =>
      match DeploymentWaiter.waitForAWXWeb env w ns timeout t2 with
      | .error e => .error ("AWX web not ready: " ++ e)
      | .ok t3 =>
        match DeploymentWaiter.waitForAWXTask env w ns timeout t3 with
        | .error e => .error ("AWX task manager not ready: " ++ e)
        | .ok t4 => .ok t4

/-- Timeout message of the operator pod poll (part of
OperatorInstaller.waitForOperatorReady). -/
def operatorTimeoutMsg : String := "timeout waiting for operator pods to be ready"

/-- The extension pod poll of OperatorInstaller.waitForOperatorReady,
lines 175-193 of the operator installer: a 10-second ticker; each tick reads
the pod status for the control-plane selector; a transient error is logged
and retried; the loop succeeds when the status equals "Running" exactly. -/
def OperatorInstaller.podLoop (env : ClusterEnv) (ns : String)
    (deadline : Nat) : Nat → Nat → Except String Nat
  | 0, _ => .error operatorTimeoutMsg
  | fuel + 1, t =>
    if deadline ≤ t + 10 then .error operatorTimeoutMsg
    else
      match env.podStatus "control-plane=controller-manager" ns (t + 10) with
      | .error _ => OperatorInstaller.podLoop env ns deadline fuel (t + 10)
      | .ok status =>
        if status = "Running" then .ok (t + 10)
        else OperatorInstaller.podLoop env ns deadline fuel (t + 10)

/-- The %v rendering of a remote API error inside a wrapped message. -/
def KError.render : KError → String
  | .alreadyExists => "already exists"
  | .notFound => "not found"
  | .conflict => "conflict"
  | .transient msg => msg

/-- Database-tier deployment/service name derived in DeploymentVerifier,
lines 304 and 389 of internal/deploy/waiter.go. -/
def DeploymentVerifier.postgresDeployment (w : String) : String :=
  w ++ "-postgres-15"

/-- Front-end-tier deployment name derived in DeploymentVerifier, line
332. -/
def DeploymentVerifier.webDeployment (w : String) : String :=
  w ++ "-web"

/-- Background-worker-tier deployment name derived in DeploymentVerifier,
line 360. -/
def DeploymentVerifier.taskDeployment (w : String) : String :=
  w ++ "-task"

/-- The required service names checked by DeploymentVerifier.verifyServices,
lines 387-390. -/
def DeploymentVerifier.serviceNames (w : String) : List String :=
  [w ++ "-service", DeploymentVerifier.postgresDeployment w]

/-- Ingress name derived in DeploymentVerifier.verifyIngress, line 409. -/
def DeploymentVerifier.ingressName (w : String) : String :=
  w ++ "-ingress"

/-- The remote cluster as the one-shot verifier observes it: outcomes of
ResourceExists per identity, of GetPodStatus per selector and namespace,
and of GetIngressStatus per ingress name and namespace. -/
structure VerifyEnv where
  resourceExists : ResourceId → Except KError Bool
  podStatus : String → String → Except KError String
  ingressStatus : String → String → Except KError String

/-- DeploymentVerifier.verifyAWXInstance, lines 287-299: one existence check
of the primary custom resource. -/
def DeploymentVerifier.verifyAWXInstance (env : VerifyEnv) (w ns : String) :
    Except String Unit :=
  match env.resourceExists ⟨"awx.ansible.com", "v1beta1", "awxs", w, ns⟩ with
  | .error e => .error ("failed to check AWX instance: " ++ e.render)
  | .ok false => .error ("AWX instance " ++ w ++ " does not exist")
  | .ok true => .ok ()

/-- DeploymentVerifier.verifyPostgreSQL, lines 302-327: deployment existence
check, then pod phase by label selector, required to contain "Running". -/
def DeploymentVerifier.verifyPostgreSQL (env : VerifyEnv) (w ns : String) :
    Except String Unit :=
  match env.resourceExists ⟨"apps", "v1", "deployments",
      DeploymentVerifier.postgresDeployment w, ns⟩ with
  | .error e => .error ("failed to check PostgreSQL deployment: " ++ e.render)
  | .ok false =>
    .error ("PostgreSQL deployment " ++ DeploymentVerifier.postgresDeployment w
      ++ " does not exist")
  | .ok true =>
    match env.podStatus
        ("app.kubernetes.io/name=postgres,app.kubernetes.io/instance=" ++ w)
        ns with
    | .error e => .error ("failed to get PostgreSQL pod status: " ++ e.render)
    | .ok status =>
      if containsSub status "Running" then .ok ()
      else .error ("PostgreSQL pod is not running, status: " ++ status)

/-- DeploymentVerifier.verifyAWXWeb, lines 330-355. -/
def DeploymentVerifier.verifyAWXWeb (env : VerifyEnv) (w ns : String) :
    Except String Unit :=
  match env.resourceExists ⟨"apps", "v1", "deployments",
      DeploymentVerifier.webDeployment w, ns⟩ with
  | .error e => .error ("failed to check AWX web deployment: " ++ e.render)
  | .ok false =>
    .error ("AWX web deployment " ++ DeploymentVerifier.webDeployment w
      ++ " does not exist")
  | .ok true =>
    match env.podStatus
        ("app.kubernetes.io/name=awx-web,app.kubernetes.io/instance=" ++ w)
        ns with
    | .error e => .error ("failed to get AWX web pod status: " ++ e.render)
    | .ok status =>
      if containsSub status "Running" then .ok ()
      else .error ("AWX web pod is not running, status: " ++ status)

/-- DeploymentVerifier.verifyAWXTask, lines 358-383. -/
def DeploymentVerifier.verifyAWXTask (env : VerifyEnv) (w ns : String) :
    Except String Unit :=
  match env.resourceExists ⟨"apps", "v1", "deployments",
      DeploymentVerifier.taskDeployment w, ns⟩ with
  | .error e => .error ("failed to check AWX task deployment: " ++ e.render)
  | .ok false =>
    .error ("AWX task deployment " ++ DeploymentVerifier.taskDeployment w
      ++ " does not exist")
  | .ok true =>
    match env.podStatus
        ("app.kubernetes.io/name=awx-task,app.kubernetes.io/instance=" ++ w)
        ns with
    | .error e => .error ("failed to get AWX task pod status: " ++ e.render)
    | .ok status =>
      if containsSub status "Running" then .ok ()
      else .error ("AWX task pod is not running, status: " ++ status)

/-- The loop body of DeploymentVerifier.verifyServices, lines 392-402, over
a list of service names: first failing existence check errors out. -/
def DeploymentVerifier.checkServices (env : VerifyEnv) (ns : String) :
    List String → Except String Unit
  | [] => .ok ()
  | svc :: rest =>
    match env.resourceExists ⟨"", "v1", "services", svc, ns⟩ with
    | .error e =>
      .error ("failed to check service " ++ svc ++ ": " ++ e.render)
    | .ok false => .error ("service " ++ svc ++ " does not exist")
    | .ok true => DeploymentVerifier.checkServices env ns rest

/-- DeploymentVerifier.verifyServices, lines 386-405: both derived service
names must exist. -/
def DeploymentVerifier.verifyServices (env : VerifyEnv) (w ns : String) :
    Except String Unit :=
  DeploymentVerifier.checkServices env ns (DeploymentVerifier.serviceNames w)

/-- DeploymentVerifier.verifyIngress, lines 408-427: an absent ingress is
skipped without error; a failed existence check or status read errors (the
caller downgrades it to a warning). -/
def DeploymentVerifier.verifyIngress (env : VerifyEnv) (w ns : String) :
    Except String Unit :=
  match env.resourceExists ⟨"networking.k8s.io", "v1", "ingresses",
      DeploymentVerifier.ingressName w, ns⟩ with
  | .error e => .error ("failed to check ingress: " ++ e.render)
  | .ok false => .ok ()
  | .ok true =>
    match env.ingressStatus (DeploymentVerifier.ingressName w) ns with
    | .error e => .error ("failed to get ingress status: " ++ e.render)
    | .ok _ => .ok ()

/-- DeploymentVerifier.Verify, lines 248-284 of internal/deploy/waiter.go:
the five required checks strictly in sequence, each wrapping its error;
then the advisory ingress check, whose outcome is only logged and never
turns the verification into a failure. -/
def DeploymentVerifier.Verify (env : VerifyEnv) (w ns : String) :
    Except String Unit :=
  match DeploymentVerifier.verifyAWXInstance env w ns with
  | .error e => .error ("AWX instance verification failed: " ++ e)
  | .ok _ =>
    match DeploymentVerifier.verifyPostgreSQL env w ns with
    | .error e => .error ("PostgreSQL verification failed: " ++ e)
    | .ok _ =>
      match DeploymentVerifier.verifyAWXWeb env w ns with
      | .error e => .error ("AWX web verification failed: " ++ e)
      | .ok _ =>
        match DeploymentVerifier.verifyAWXTask env w ns with
        | .error e => .error ("AWX task verification failed: " ++ e)
        | .ok _ =>
          match DeploymentVerifier.verifyServices env w ns with
          | .error e => .error ("Services verification failed: " ++ e)
          | .ok _ =>
            match DeploymentVerifier.verifyIngress env w ns with
            | .error _ => .ok ()
            | .ok _ => .ok ()

/-- The verification sequence as the spec words it: the five required
checks in order, first failure wins, the ingress never consulted for the
overall outcome.  Compared against DeploymentVerifier.Verify. -/
def DeploymentVerifier.requiredVerify (env : VerifyEnv) (w ns : String) :
    Except String Unit :=
  match DeploymentVerifier.verifyAWXInstance env w ns with
  | .error e => .error ("AWX instance verification failed: " ++ e)
  | .ok _ =>
    match DeploymentVerifier.verifyPostgreSQL env w ns with
    | .error e => .error ("PostgreSQL verification failed: " ++ e)
    | .ok _ =>
      match DeploymentVerifier.verifyAWXWeb env w ns with
      | .error e => .error ("AWX web verification failed: " ++ e)
      | .ok _ =>
        match DeploymentVerifier.verifyAWXTask env w ns with
        | .error e => .error ("AWX task verification failed: " ++ e)
        | .ok _ =>
          match DeploymentVerifier.verifyServices env w ns with
          | .error e => .error ("Services verification failed: " ++ e)
          | .ok _ => .ok ()

/-! Helper lemmas about the lexicographic comparator. -/

theorem charListLe_cons {x y : Char} {xs ys : List Char}
    (h : charListLe (x :: xs) (y :: ys) = true) :
    x.toNat < y.toNat ∨ (x.toNat = y.toNat ∧ charListLe xs ys = true) := by
  by_cases hxy : x.toNat < y.toNat
  · exact Or.inl hxy
  · right
    simp only [charListLe, if_neg hxy] at h
    by_cases hyx : y.toNat < x.toNat
    · rw [if_pos hyx] at h
      exact absurd h (by simp)
    · rw [if_neg hyx] at h
      exact ⟨by omega, h⟩

theorem charListLe_total : ∀ xs ys : List Char,
    charListLe xs ys = true ∨ charListLe ys xs = true := by
  intro xs
  induction xs with
  | nil => intro ys; left; rfl
  | cons x xs ih =>
    intro ys
    cases ys with
    | nil => right; rfl
    | cons y ys =>
      simp only [charListLe]
      rcases Nat.lt_trichotomy x.toNat y.toNat with h | h | h
      · left; simp [h]
      · simp [h, Nat.lt_irrefl]
        exact ih ys
      · right; simp [h, Nat.lt_asymm h]

theorem charListLe_trans : ∀ xs ys zs : List Char,
    charListLe xs ys = true → charListLe ys zs = true →
    charListLe xs zs = true := by
  intro xs
  induction xs with
  | nil => intro ys zs _ _; rfl
  | cons x xs ih =>
    intro ys zs h1 h2
    cases ys with
    | nil => simp [charListLe] at h1
    | cons y ys =>
      cases zs with
      | nil => simp [charListLe] at h2
      | cons z zs =>
        simp only [charListLe]
        rcases charListLe_cons h1 with hxy | ⟨hxy, hr1⟩
        · rcases charListLe_cons h2 with hyz | ⟨hyz, hr2⟩
          · simp [Nat.lt_trans hxy hyz]
          · simp [show x.toNat < z.toNat by omega]
        · rcases charListLe_cons h2 with hyz | ⟨hyz, hr2⟩
          · simp [show x.toNat < z.toNat by omega]
          · rw [if_neg (by omega), if_neg (by omega)]
            exact ih ys zs hr1 hr2

instance : IsTotal String (fun a b => ManifestApplier.fileLe a b = true) :=
  ⟨fun a b => charListLe_total a.data b.data⟩

instance : IsTrans String (fun a b => ManifestApplier.fileLe a b = true) :=
  ⟨fun a b c => charListLe_trans a.data b.data c.data⟩


/-! Helper lemmas about the store. -/

theorem find_name_unique : ∀ (l : List KObject) (n : String) (y : KObject),
    (l.map KObject.name).Nodup →
    l.find? (fun o => o.name == n) = some y →
    ∀ x ∈ l, x.name = n → x = y := by
  intro l
  induction l with
  | nil => intro n y _ hf; simp at hf
  | cons a l ih =>
    intro n y hnd hf x hx hxn
    rw [List.map_cons, List.nodup_cons] at hnd
    by_cases ha : a.name = n
    · rw [List.find?_cons_of_pos _ (by simp [ha])] at hf
      injection hf with hf
      rcases List.mem_cons.mp hx with rfl | hx
      · exact hf.symm ▸ rfl
      · have hmem : x.name ∈ List.map KObject.name l :=
          List.mem_map_of_mem KObject.name hx
        rw [hxn, ← ha] at hmem
        exact absurd hmem hnd.1
    · rw [List.find?_cons_of_neg _ (by simp [ha])] at hf
      rcases List.mem_cons.mp hx with rfl | hx
      · exact absurd hxn ha
      · exact ih n y hnd.2 hf x hx hxn

theorem find_append_none (l : List KObject) (a : KObject) (n : String)
    (h : l.find? (fun o => o.name == n) = none) :
    (l ++ [a]).find? (fun o => o.name == n) =
      if a.name = n then some a else none := by
  rw [List.find?_append, h]
  by_cases ha : a.name = n
  · rw [List.find?_cons_of_pos _ (by simp [ha])]
    simp [ha]
  · rw [List.find?_cons_of_neg _ (by simp [ha])]
    simp [ha]

theorem find_overwrite (l : List KObject) (n : String) (y : KObject)
    (hy : y.name = n)
    (hsome : (l.find? (fun o => o.name == n)).isSome = true) :
    ((l.map (fun x => if x.name = n then y else x)).find?
      (fun o => o.name == n)) = some y := by
  induction l with
  | nil => simp at hsome
  | cons a l ih =>
    by_cases ha : a.name = n
    · simp [ha, hy]
    · rw [List.find?_cons_of_neg _ (by simp [ha])] at hsome
      simp only [List.map_cons, if_neg ha]
      rw [List.find?_cons_of_neg _ (by simp [ha])]
      exact ih hsome

theorem names_overwrite (l : List KObject) (n : String) (y : KObject)
    (hy : y.name = n) :
    (l.map (fun x => if x.name = n then y else x)).map KObject.name =
      l.map KObject.name := by
  induction l with
  | nil => rfl
  | cons a l ih =>
    by_cases ha : a.name = n
    · simp only [List.map_cons, if_pos ha, ih]
      rw [hy, ha]
    · simp only [List.map_cons, if_neg ha, ih]

theorem objectSet_overwrite (l : List KObject) (n : String) (y : KObject)
    (hy : y.name = n)
    (hspec : ∀ x ∈ l, x.name = n → x.spec = y.spec) :
    (l.map (fun x => if x.name = n then y else x)).map
        (fun o => (o.name, o.spec)) =
      l.map (fun o => (o.name, o.spec)) := by
  induction l with
  | nil => rfl
  | cons a l ih =>
    have ihl := ih (fun x hx => hspec x (List.mem_cons_of_mem a hx))
    by_cases ha : a.name = n
    · simp only [List.map_cons, if_pos ha, ihl]
      rw [hy, ha, hspec a (List.mem_cons_self a l) ha]
    · simp only [List.map_cons, if_neg ha, ihl]

/-- After a fault-free Apply the store is still well formed and holds the
document under its name with the document spec. -/
theorem apply_noFaults_post (s : Store) (doc : KObject) (s1 : Store)
    (b : ApplyBranch) (hwf : s.wellFormed)
    (h : KubernetesClient.Apply noFaults s doc = .ok (s1, b)) :
    s1.wellFormed ∧
    s1.lookup doc.name = some ⟨doc.name, doc.spec, s.nextVersion⟩ := by
  cases hl : s.objs.find? (fun o => o.name == doc.name) with
  | none =>
    simp [KubernetesClient.Apply, createCall, noFaults, Store.lookup, hl] at h
    obtain ⟨h1, -⟩ := h
    subst h1
    constructor
    · unfold Store.wellFormed at hwf ⊢
      simp only [List.map_append, List.map_cons, List.map_nil]
      rw [List.nodup_append]
      refine ⟨hwf, List.nodup_singleton _, ?_⟩
      intro m hm hm2
      simp only [List.mem_singleton] at hm2
      rw [List.find?_eq_none] at hl
      rcases List.mem_map.mp hm with ⟨x, hx, rfl⟩
      exact (by simpa [hm2] using hl x hx)
    · rw [Store.lookup]
      simp only
      rw [find_append_none _ _ _ hl, if_pos rfl]
  | some cur =>
    simp [KubernetesClient.Apply, createCall, getCall, updateCall, noFaults,
      Store.lookup, hl] at h
    obtain ⟨h1, -⟩ := h
    subst h1
    have hsome : (s.objs.find? (fun o => o.name == doc.name)).isSome = true := by
      rw [hl]; rfl
    constructor
    · unfold Store.wellFormed at hwf ⊢
      simp only
      rw [names_overwrite s.objs doc.name
        ⟨doc.name, doc.spec, s.nextVersion⟩ rfl]
      exact hwf
    · rw [Store.lookup]
      simp only
      exact find_overwrite s.objs doc.name _ rfl hsome


/-- A fault-free Apply against a store that already holds an object of the
document name takes the update branch and overwrites that object in
place. -/
theorem apply_update_branch (s1 : Store) (doc : KObject) (obj : KObject)
    (hlk : s1.lookup doc.name = some obj) :
    KubernetesClient.Apply noFaults s1 doc =
      .ok (⟨s1.objs.map (fun x => if x.name = doc.name
              then ⟨doc.name, doc.spec, s1.nextVersion⟩ else x),
            s1.nextVersion + 1⟩, .updatedExisting) := by
  rw [Store.lookup] at hlk
  simp [KubernetesClient.Apply, createCall, getCall, updateCall, noFaults,
    Store.lookup, hlk]


/-- C1: applying the same document twice in succession yields the same final
set of remote objects as applying it once: after a successful fault-free
apply, a second fault-free apply of the identical document returns no
error, takes the update-on-already-exists branch rather than creating a
second object, and leaves the observable object set (names and specs) and
the object count unchanged. -/
theorem apply_second_pass_idempotent (s : Store) (doc : KObject)
    (s1 : Store) (b : ApplyBranch) (hwf : s.wellFormed)
    (h : KubernetesClient.Apply noFaults s doc = .ok (s1, b)) :
    okB (KubernetesClient.Apply noFaults s1 doc) = true
  ∧ KubernetesClient.applyBranch noFaults s1 doc =
      some ApplyBranch.updatedExisting
  ∧ (KubernetesClient.applyState noFaults s1 doc).map Store.objectSet =
      some s1.objectSet
  ∧ (KubernetesClient.applyState noFaults s1 doc).map
      (fun s2 => s2.objs.length) = some s1.objs.length := by
  obtain ⟨hwf1, hlk⟩ := apply_noFaults_post s doc s1 b hwf h
  have heq := apply_update_branch s1 doc _ hlk
  have hspec : ∀ x ∈ s1.objs, x.name = doc.name → x.spec = doc.spec := by
    intro x hx hxn
    have hfind : s1.objs.find? (fun o => o.name == doc.name) =
        some ⟨doc.name, doc.spec, s.nextVersion⟩ := by
      rw [Store.lookup] at hlk
      exact hlk
    rw [find_name_unique s1.objs doc.name _ hwf1 hfind x hx hxn]
  refine ⟨?_, ?_, ?_, ?_⟩
  · rw [heq]; rfl
  · simp only [KubernetesClient.applyBranch, heq]
  · simp only [KubernetesClient.applyState, heq]
    unfold Store.objectSet
    simp only [Option.map]
    rw [objectSet_overwrite s1.objs doc.name
      ⟨doc.name, doc.spec, s1.nextVersion⟩ rfl hspec]
  · simp [KubernetesClient.applyState, heq]

/-- Witness for C1 at a concrete input: an empty store, a first apply that
creates the object, and the theorem applied to that run. -/
theorem apply_second_pass_idempotent_witness :
    (Store.mk [] 5).wellFormed
  ∧ KubernetesClient.Apply noFaults (Store.mk [] 5)
      (KObject.mk "awx-demo" "spec0" 0) =
      .ok (Store.mk [KObject.mk "awx-demo" "spec0" 5] 6,
        ApplyBranch.createdNew)
  ∧ (okB (KubernetesClient.Apply noFaults
        (Store.mk [KObject.mk "awx-demo" "spec0" 5] 6)
        (KObject.mk "awx-demo" "spec0" 0)) = true
     ∧ KubernetesClient.applyBranch noFaults
        (Store.mk [KObject.mk "awx-demo" "spec0" 5] 6)
        (KObject.mk "awx-demo" "spec0" 0) =
          some ApplyBranch.updatedExisting
     ∧ (KubernetesClient.applyState noFaults
          (Store.mk [KObject.mk "awx-demo" "spec0" 5] 6)
          (KObject.mk "awx-demo" "spec0" 0)).map Store.objectSet =
        some (Store.mk [KObject.mk "awx-demo" "spec0" 5] 6).objectSet
     ∧ (KubernetesClient.applyState noFaults
          (Store.mk [KObject.mk "awx-demo" "spec0" 5] 6)
          (KObject.mk "awx-demo" "spec0" 0)).map
            (fun s2 => s2.objs.length) =
        some (Store.mk [KObject.mk "awx-demo" "spec0" 5] 6).objs.length) :=
  ⟨by decide, rfl,
    apply_second_pass_idempotent (Store.mk [] 5)
      (KObject.mk "awx-demo" "spec0" 0)
      (Store.mk [KObject.mk "awx-demo" "spec0" 5] 6)
      ApplyBranch.createdNew (by decide) rfl⟩

/-- C2: for every document, Apply first attempts a create; exactly when the
create fails with an already-exists conflict it re-reads the existing
object, merges its version token into the document and performs an update;
it succeeds precisely when the create succeeds, or when the create conflict
is already-exists and both the re-read and the merged update succeed — any
other create failure, a failed re-read or a failed update is an error. -/
theorem apply_create_or_update_contract (env : ApplyEnv) (s : Store)
    (doc : KObject) :
    okB (KubernetesClient.Apply env s doc) =
      KubernetesClient.applyContractOk env s doc
  ∧ (KubernetesClient.applyBranch env s doc = some ApplyBranch.createdNew ↔
      okB (createCall env.createFault s doc) = true)
  ∧ (KubernetesClient.applyBranch env s doc =
        some ApplyBranch.updatedExisting ↔
      (createCall env.createFault s doc = .error .alreadyExists ∧
        KubernetesClient.applyContractOk env s doc = true)) := by
  cases hc : createCall env.createFault s doc with
  | ok s2 =>
    simp [KubernetesClient.Apply, KubernetesClient.applyContractOk,
      KubernetesClient.applyBranch, okB, hc]
  | error ce =>
    by_cases hce : ce = KError.alreadyExists
    · subst hce
      cases hg : getCall env.getFault s doc.name with
      | error ge =>
        simp [KubernetesClient.Apply, KubernetesClient.applyContractOk,
          KubernetesClient.applyBranch, okB, hc, hg]
      | ok existingObj =>
        cases hu : updateCall env.updateFault s
            { doc with resourceVersion := existingObj.resourceVersion } with
        | error ue =>
          simp [KubernetesClient.Apply, KubernetesClient.applyContractOk,
            KubernetesClient.applyBranch, okB, hc, hg, hu]
        | ok s3 =>
          simp [KubernetesClient.Apply, KubernetesClient.applyContractOk,
            KubernetesClient.applyBranch, okB, hc, hg, hu]
    · simp [KubernetesClient.Apply, KubernetesClient.applyContractOk,
        KubernetesClient.applyBranch, okB, hc, hce]

/-- C9: for a document whose namespace field is empty, Apply targets the
object cluster-scoped exactly when the resolved plural resource is
"namespaces" or "persistentvolumes"; for every other resource the empty
namespace is replaced by the literal namespace "default". -/
theorem apply_empty_namespace_defaulting (resource : String) :
    KubernetesClient.applyTargetNamespace "" resource =
      (if resource = "namespaces" ∨ resource = "persistentvolumes" then ""
       else "default")
  ∧ (KubernetesClient.targetsClusterScoped "" resource = true ↔
      (resource = "namespaces" ∨ resource = "persistentvolumes")) := by
  unfold KubernetesClient.targetsClusterScoped
    KubernetesClient.applyTargetNamespace
  by_cases h1 : resource = "namespaces"
  · simp [h1]
  · by_cases h2 : resource = "persistentvolumes"
    · simp [h1, h2]
    · simp [h1, h2]


/-- C7: for every workload name the dependent object names used by the
existence and status checks are exactly the concatenations of the workload
name with "-postgres-15" (database tier, version-suffixed), "-web"
(front-end tier), "-task" (background-worker tier), "-service" (service)
and "-ingress" (ingress), and the readiness waiter and the deployment
verifier derive the same name for the same tier. -/
theorem derived_names_bit_exact (w : String) :
    DeploymentWaiter.postgresDeployment w = w ++ "-postgres-15"
  ∧ DeploymentWaiter.webDeployment w = w ++ "-web"
  ∧ DeploymentWaiter.taskDeployment w = w ++ "-task"
  ∧ DeploymentVerifier.postgresDeployment w = w ++ "-postgres-15"
  ∧ DeploymentVerifier.webDeployment w = w ++ "-web"
  ∧ DeploymentVerifier.taskDeployment w = w ++ "-task"
  ∧ DeploymentVerifier.serviceNames w = [w ++ "-service", w ++ "-postgres-15"]
  ∧ DeploymentVerifier.ingressName w = w ++ "-ingress"
  ∧ DeploymentWaiter.postgresDeployment w =
      DeploymentVerifier.postgresDeployment w
  ∧ DeploymentWaiter.webDeployment w = DeploymentVerifier.webDeployment w
  ∧ DeploymentWaiter.taskDeployment w = DeploymentVerifier.taskDeployment w :=
  ⟨rfl, rfl, rfl, rfl, rfl, rfl, rfl, rfl, rfl, rfl, rfl⟩

/-- The discovery surface of the counterexample run: one group/version
exposing the AWX kind under the plural resource "awxs". -/
def cexDisc : String → Except KError (List APIResource) := fun gv =>
  if gv = "awx.ansible.com/v1beta1" then .ok [⟨"AWX", "awxs"⟩]
  else .error .notFound

/-- The group/version/kind resolved twice in the counterexample run. -/
def cexGVK : GVK := ⟨"awx.ansible.com", "v1beta1", "AWX"⟩

/-- C8 counterexample: the claim that the kind-to-plural discovery mapping
is cached — so that of two resolutions of the same group/version/kind only
the first issues a remote discovery request — is false on the code: two
successive resolutions of the same triple against a concrete discovery
surface issue two remote requests, not one (gvrForGVK holds no cache and
calls ServerResourcesForGroupVersion unconditionally). -/
theorem gvr_discovery_not_cached_cex :
    (KubernetesClient.gvrForGVKTwice cexDisc cexGVK).1 =
      ["awx.ansible.com/v1beta1", "awx.ansible.com/v1beta1"]
  ∧ (KubernetesClient.gvrForGVKTwice cexDisc cexGVK).1.length ≠ 1
  ∧ (KubernetesClient.gvrForGVKTwice cexDisc cexGVK).2 =
      .ok ⟨"awx.ansible.com", "v1beta1", "awxs"⟩ :=
  ⟨rfl, by decide, rfl⟩


/-- C8 amended: the kind-to-plural discovery resolution is not cached —
every resolution issues exactly one remote discovery request, repeated
resolutions of the same triple included — and it succeeds exactly when the
discovery request succeeds and the returned API surface exposes a resource
with the requested kind. -/
theorem gvr_discovery_uncached_contract
    (disc : String → Except KError (List APIResource))
    (reqLog : List String) (gvk : GVK) :
    (KubernetesClient.gvrForGVK disc reqLog gvk).1 =
      reqLog ++ [gvk.groupVersionKey]
  ∧ (okB (KubernetesClient.gvrForGVK disc reqLog gvk).2 = true ↔
      ∃ resources, disc gvk.groupVersionKey = .ok resources ∧
        resources.any (fun r => r.kind == gvk.kind) = true) := by
  cases hd : disc gvk.groupVersionKey with
  | error e =>
    constructor
    · simp [KubernetesClient.gvrForGVK, hd]
    · simp [KubernetesClient.gvrForGVK, hd, okB]
  | ok resources =>
    constructor
    · cases hf : resources.find? (fun r => r.kind == gvk.kind) <;>
        simp [KubernetesClient.gvrForGVK, hd, hf]
    · cases hf : resources.find? (fun r => r.kind == gvk.kind) with
      | none =>
        simp only [KubernetesClient.gvrForGVK, hd, hf]
        simp only [okB]
        constructor
        · intro hfalse; cases hfalse
        · rintro ⟨rs, hrs, hany⟩
          injection hrs with hrs
          subst hrs
          rcases List.any_eq_true.mp hany with ⟨r, hr, hrk⟩
          rw [List.find?_eq_none] at hf
          exact absurd hrk (by simpa using hf r hr)
      | some r =>
        simp only [KubernetesClient.gvrForGVK, hd, hf]
        simp only [okB]
        constructor
        · intro _
          refine ⟨resources, rfl, List.any_eq_true.mpr ⟨r, ?_, ?_⟩⟩
          · exact List.mem_of_find?_eq_some hf
          · have := List.find?_some hf
            simpa using this
        · intro _; trivial

/-- C6: Verify fails with an error identifying the first required check
that fails, in the order primary resource, database, front-end,
background-worker, services; the ingress check never affects the outcome:
Verify coincides with the required-checks-only sequence for every
environment (in particular it succeeds when all required checks pass even
if the ingress is absent or its check errors), and its success is exactly
the conjunction of the five required checks. -/
theorem verify_ingress_soft_fail (env : VerifyEnv) (w ns : String) :
    DeploymentVerifier.Verify env w ns =
      DeploymentVerifier.requiredVerify env w ns
  ∧ okB (DeploymentVerifier.Verify env w ns) =
      (okB (DeploymentVerifier.verifyAWXInstance env w ns) &&
       okB (DeploymentVerifier.verifyPostgreSQL env w ns) &&
       okB (DeploymentVerifier.verifyAWXWeb env w ns) &&
       okB (DeploymentVerifier.verifyAWXTask env w ns) &&
       okB (DeploymentVerifier.verifyServices env w ns))
  ∧ (∀ e, DeploymentVerifier.verifyAWXInstance env w ns = .error e →
      DeploymentVerifier.Verify env w ns =
        .error ("AWX instance verification failed: " ++ e))
  ∧ (∀ e, DeploymentVerifier.verifyAWXInstance env w ns = .ok () →
      DeploymentVerifier.verifyPostgreSQL env w ns = .error e →
      DeploymentVerifier.Verify env w ns =
        .error ("PostgreSQL verification failed: " ++ e))
  ∧ (∀ e, DeploymentVerifier.verifyAWXInstance env w ns = .ok () →
      DeploymentVerifier.verifyPostgreSQL env w ns = .ok () →
      DeploymentVerifier.verifyAWXWeb env w ns = .error e →
      DeploymentVerifier.Verify env w ns =
        .error ("AWX web verification failed: " ++ e))
  ∧ (∀ e, DeploymentVerifier.verifyAWXInstance env w ns = .ok () →
      DeploymentVerifier.verifyPostgreSQL env w ns = .ok () →
      DeploymentVerifier.verifyAWXWeb env w ns = .ok () →
      DeploymentVerifier.verifyAWXTask env w ns = .error e →
      DeploymentVerifier.Verify env w ns =
        .error ("AWX task verification failed: " ++ e))
  ∧ (∀ e, DeploymentVerifier.verifyAWXInstance env w ns = .ok () →
      DeploymentVerifier.verifyPostgreSQL env w ns = .ok () →
      DeploymentVerifier.verifyAWXWeb env w ns = .ok () →
      DeploymentVerifier.verifyAWXTask env w ns = .ok () →
      DeploymentVerifier.verifyServices env w ns = .error e →
      DeploymentVerifier.Verify env w ns =
        .error ("Services verification failed: " ++ e)) := by
  cases h1 : DeploymentVerifier.verifyAWXInstance env w ns with
  | error e1 =>
    simp [DeploymentVerifier.Verify, DeploymentVerifier.requiredVerify,
      okB, h1]
  | ok u1 =>
    cases u1
    cases h2 : DeploymentVerifier.verifyPostgreSQL env w ns with
    | error e2 =>
      simp [DeploymentVerifier.Verify, DeploymentVerifier.requiredVerify,
        okB, h1, h2]
    | ok u2 =>
      cases u2
      cases h3 : DeploymentVerifier.verifyAWXWeb env w ns with
      | error e3 =>
        simp [DeploymentVerifier.Verify, DeploymentVerifier.requiredVerify,
          okB, h1, h2, h3]
      | ok u3 =>
        cases u3
        cases h4 : DeploymentVerifier.verifyAWXTask env w ns with
        | error e4 =>
          simp [DeploymentVerifier.Verify, DeploymentVerifier.requiredVerify,
            okB, h1, h2, h3, h4]
        | ok u4 =>
          cases u4
          cases h5 : DeploymentVerifier.verifyServices env w ns with
          | error e5 =>
            simp [DeploymentVerifier.Verify,
              DeploymentVerifier.requiredVerify, okB, h1, h2, h3, h4, h5]
          | ok u5 =>
            cases u5
            cases h6 : DeploymentVerifier.verifyIngress env w ns with
            | error e6 =>
              simp [DeploymentVerifier.Verify,
                DeploymentVerifier.requiredVerify, okB, h1, h2, h3, h4, h5, h6]
            | ok u6 =>
              cases u6
              simp [DeploymentVerifier.Verify,
                DeploymentVerifier.requiredVerify, okB, h1, h2, h3, h4, h5, h6]

theorem waitInstLoop_err (env : ClusterEnv) (w ns : String) (deadline : Nat) :
    ∀ fuel t, okB (DeploymentWaiter.waitForAWXInstanceLoop env w ns deadline
        fuel t) = true ∨
      DeploymentWaiter.waitForAWXInstanceLoop env w ns deadline fuel t =
        .error instanceTimeoutMsg := by
  intro fuel
  induction fuel with
  | zero => intro t; right; rfl
  | succ fuel ih =>
    intro t
    simp only [DeploymentWaiter.waitForAWXInstanceLoop]
    by_cases hd : deadline ≤ t + 30
    · right; rw [if_pos hd]
    · rw [if_neg hd]
      cases he : env.resourceExists ⟨"awx.ansible.com", "v1beta1", "awxs",
          w, ns⟩ (t + 30) with
      | error e => exact ih (t + 30)
      | ok b =>
        cases b with
        | true => left; rfl
        | false => exact ih (t + 30)

theorem waitInstLoop_lb (env : ClusterEnv) (w ns : String) (deadline : Nat) :
    ∀ fuel t r, DeploymentWaiter.waitForAWXInstanceLoop env w ns deadline
        fuel t = .ok r → t + 30 ≤ r := by
  intro fuel
  induction fuel with
  | zero => intro t r h; simp [DeploymentWaiter.waitForAWXInstanceLoop] at h
  | succ fuel ih =>
    intro t r h
    simp only [DeploymentWaiter.waitForAWXInstanceLoop] at h
    by_cases hd : deadline ≤ t + 30
    · rw [if_pos hd] at h
      exact absurd h (by simp)
    · rw [if_neg hd] at h
      cases he : env.resourceExists ⟨"awx.ansible.com", "v1beta1", "awxs",
          w, ns⟩ (t + 30) with
      | error e =>
        rw [he] at h
        have := ih (t + 30) r h
        omega
      | ok b =>
        cases b with
        | true =>
          rw [he] at h
          injection h with h
          omega
        | false =>
          rw [he] at h
          have := ih (t + 30) r h
          omega

theorem waitPgLoop_err (env : ClusterEnv) (w ns : String) (deadline : Nat) :
    ∀ fuel t, okB (DeploymentWaiter.waitForPostgreSQLLoop env w ns deadline fuel t) = true ∨
      DeploymentWaiter.waitForPostgreSQLLoop env w ns deadline fuel t = .error postgresTimeoutMsg := by
  intro fuel
  induction fuel with
  | zero => intro t; right; rfl
  | succ fuel ih =>
    intro t
    simp only [DeploymentWaiter.waitForPostgreSQLLoop]
    by_cases hd : deadline ≤ t + 30
    · right; rw [if_pos hd]
    · rw [if_neg hd]
      cases he : env.resourceExists ⟨"apps", "v1", "deployments",
          DeploymentWaiter.postgresDeployment w, ns⟩ (t + 30) with
      | error e => exact ih (t + 30)
      | ok b =>
        cases b with
        | false => exact ih (t + 30)
        | true =>
          cases hs : env.podStatus ("app.kubernetes.io/name=postgres,app.kubernetes.io/instance=" ++ w) ns (t + 30) with
          | error e => exact ih (t + 30)
          | ok status =>
            show okB (if containsSub status "Running" = true
                then (Except.ok (t + 30) : Except String Nat)
                else DeploymentWaiter.waitForPostgreSQLLoop env w ns deadline fuel (t + 30)) = true ∨
              (if containsSub status "Running" = true
                then (Except.ok (t + 30) : Except String Nat)
                else DeploymentWaiter.waitForPostgreSQLLoop env w ns deadline fuel (t + 30)) =
                .error postgresTimeoutMsg
            by_cases hr : containsSub status "Running" = true
            · rw [if_pos hr]; left; rfl
            · rw [if_neg hr]; exact ih (t + 30)

theorem waitPgLoop_lb (env : ClusterEnv) (w ns : String) (deadline : Nat) :
    ∀ fuel t r, DeploymentWaiter.waitForPostgreSQLLoop env w ns deadline fuel t = .ok r → t + 30 ≤ r := by
  intro fuel
  induction fuel with
  | zero => intro t r h; simp [DeploymentWaiter.waitForPostgreSQLLoop] at h
  | succ fuel ih =>
    intro t r h
    simp only [DeploymentWaiter.waitForPostgreSQLLoop] at h
    by_cases hd : deadline ≤ t + 30
    · rw [if_pos hd] at h
      exact absurd h (by simp)
    · rw [if_neg hd] at h
      cases he : env.resourceExists ⟨"apps", "v1", "deployments",
          DeploymentWaiter.postgresDeployment w, ns⟩ (t + 30) with
      | error e =>
        rw [he] at h
        have := ih (t + 30) r h
        omega
      | ok b =>
        cases b with
        | false =>
          rw [he] at h
          have := ih (t + 30) r h
          omega
        | true =>
          rw [he] at h
          cases hs : env.podStatus ("app.kubernetes.io/name=postgres,app.kubernetes.io/instance=" ++ w) ns (t + 30) with
          | error e =>
            rw [hs] at h
            have := ih (t + 30) r h
            omega
          | ok status =>
            rw [hs] at h
            have h3 : (if containsSub status "Running" = true
                then (Except.ok (t + 30) : Except String Nat)
                else DeploymentWaiter.waitForPostgreSQLLoop env w ns deadline fuel (t + 30)) = .ok r := h
            by_cases hr : containsSub status "Running" = true
            · rw [if_pos hr] at h3
              injection h3 with h3
              omega
            · rw [if_neg hr] at h3
              have := ih (t + 30) r h3
              omega

theorem waitWebLoop_err (env : ClusterEnv) (w ns : String) (deadline : Nat) :
    ∀ fuel t, okB (DeploymentWaiter.waitForAWXWebLoop env w ns deadline fuel t) = true ∨
      DeploymentWaiter.waitForAWXWebLoop env w ns deadline fuel t = .error webTimeoutMsg := by
  intro fuel
  induction fuel with
  | zero => intro t; right; rfl
  | succ fuel ih =>
    intro t
    simp only [DeploymentWaiter.waitForAWXWebLoop]
    by_cases hd : deadline ≤ t + 30
    · right; rw [if_pos hd]
    · rw [if_neg hd]
      cases he : env.resourceExists ⟨"apps", "v1", "deployments",
          DeploymentWaiter.webDeployment w, ns⟩ (t + 30) with
      | error e => exact ih (t + 30)
      | ok b =>
        cases b with
        | false => exact ih (t + 30)
        | true =>
          cases hs : env.podStatus ("app.kubernetes.io/name=" ++ w ++ ",app.kubernetes.io/component=web") ns (t + 30) with
          | error e => exact ih (t + 30)
          | ok status =>
            show okB (if containsSub status "Running" = true
                then (Except.ok (t + 30) : Except String Nat)
                else DeploymentWaiter.waitForAWXWebLoop env w ns deadline fuel (t + 30)) = true ∨
              (if containsSub status "Running" = true
                then (Except.ok (t + 30) : Except String Nat)
                else DeploymentWaiter.waitForAWXWebLoop env w ns deadline fuel (t + 30)) =
                .error webTimeoutMsg
            by_cases hr : containsSub status "Running" = true
            · rw [if_pos hr]; left; rfl
            · rw [if_neg hr]; exact ih (t + 30)

theorem waitWebLoop_lb (env : ClusterEnv) (w ns : String) (deadline : Nat) :
    ∀ fuel t r, DeploymentWaiter.waitForAWXWebLoop env w ns deadline fuel t = .ok r → t + 30 ≤ r := by
  intro fuel
  induction fuel with
  | zero => intro t r h; simp [DeploymentWaiter.waitForAWXWebLoop] at h
  | succ fuel ih =>
    intro t r h
    simp only [DeploymentWaiter.waitForAWXWebLoop] at h
    by_cases hd : deadline ≤ t + 30
    · rw [if_pos hd] at h
      exact absurd h (by simp)
    · rw [if_neg hd] at h
      cases he : env.resourceExists ⟨"apps", "v1", "deployments",
          DeploymentWaiter.webDeployment w, ns⟩ (t + 30) with
      | error e =>
        rw [he] at h
        have := ih (t + 30) r h
        omega
      | ok b =>
        cases b with
        | false =>
          rw [he] at h
          have := ih (t + 30) r h
          omega
        | true =>
          rw [he] at h
          cases hs : env.podStatus ("app.kubernetes.io/name=" ++ w ++ ",app.kubernetes.io/component=web") ns (t + 30) with
          | error e =>
            rw [hs] at h
            have := ih (t + 30) r h
            omega
          | ok status =>
            rw [hs] at h
            have h3 : (if containsSub status "Running" = true
                then (Except.ok (t + 30) : Except String Nat)
                else DeploymentWaiter.waitForAWXWebLoop env w ns deadline fuel (t + 30)) = .ok r := h
            by_cases hr : containsSub status "Running" = true
            · rw [if_pos hr] at h3
              injection h3 with h3
              omega
            · rw [if_neg hr] at h3
              have := ih (t + 30) r h3
              omega

theorem waitTaskLoop_err (env : ClusterEnv) (w ns : String) (deadline : Nat) :
    ∀ fuel t, okB (DeploymentWaiter.waitForAWXTaskLoop env w ns deadline fuel t) = true ∨
      DeploymentWaiter.waitForAWXTaskLoop env w ns deadline fuel t = .error taskTimeoutMsg := by
  intro fuel
  induction fuel with
  | zero => intro t; right; rfl
  | succ fuel ih =>
    intro t
    simp only [DeploymentWaiter.waitForAWXTaskLoop]
    by_cases hd : deadline ≤ t + 30
    · right; rw [if_pos hd]
    · rw [if_neg hd]
      cases he : env.resourceExists ⟨"apps", "v1", "deployments",
          DeploymentWaiter.taskDeployment w, ns⟩ (t + 30) with
      | error e => exact ih (t + 30)
      | ok b =>
        cases b with
        | false => exact ih (t + 30)
        | true =>
          cases hs : env.podStatus ("app.kubernetes.io/name=" ++ w ++ ",app.kubernetes.io/component=task") ns (t + 30) with
          | error e => exact ih (t + 30)
          | ok status =>
            show okB (if containsSub status "Running" = true
                then (Except.ok (t + 30) : Except String Nat)
                else DeploymentWaiter.waitForAWXTaskLoop env w ns deadline fuel (t + 30)) = true ∨
              (if containsSub status "Running" = true
                then (Except.ok (t + 30) : Except String Nat)
                else DeploymentWaiter.waitForAWXTaskLoop env w ns deadline fuel (t + 30)) =
                .error taskTimeoutMsg
            by_cases hr : containsSub status "Running" = true
            · rw [if_pos hr]; left; rfl
            · rw [if_neg hr]; exact ih (t + 30)

theorem waitTaskLoop_lb (env : ClusterEnv) (w ns : String) (deadline : Nat) :
    ∀ fuel t r, DeploymentWaiter.waitForAWXTaskLoop env w ns deadline fuel t = .ok r → t + 30 ≤ r := by
  intro fuel
  induction fuel with
  | zero => intro t r h; simp [DeploymentWaiter.waitForAWXTaskLoop] at h
  | succ fuel ih =>
    intro t r h
    simp only [DeploymentWaiter.waitForAWXTaskLoop] at h
    by_cases hd : deadline ≤ t + 30
    · rw [if_pos hd] at h
      exact absurd h (by simp)
    · rw [if_neg hd] at h
      cases he : env.resourceExists ⟨"apps", "v1", "deployments",
          DeploymentWaiter.taskDeployment w, ns⟩ (t + 30) with
      | error e =>
        rw [he] at h
        have := ih (t + 30) r h
        omega
      | ok b =>
        cases b with
        | false =>
          rw [he] at h
          have := ih (t + 30) r h
          omega
        | true =>
          rw [he] at h
          cases hs : env.podStatus ("app.kubernetes.io/name=" ++ w ++ ",app.kubernetes.io/component=task") ns (t + 30) with
          | error e =>
            rw [hs] at h
            have := ih (t + 30) r h
            omega
          | ok status =>
            rw [hs] at h
            have h3 : (if containsSub status "Running" = true
                then (Except.ok (t + 30) : Except String Nat)
                else DeploymentWaiter.waitForAWXTaskLoop env w ns deadline fuel (t + 30)) = .ok r := h
            by_cases hr : containsSub status "Running" = true
            · rw [if_pos hr] at h3
              injection h3 with h3
              omega
            · rw [if_neg hr] at h3
              have := ih (t + 30) r h3
              omega

theorem waitOpLoop_err (env : ClusterEnv) (ns : String) (deadline : Nat) :
    ∀ fuel t, okB (OperatorInstaller.podLoop env ns deadline fuel t) = true ∨
      OperatorInstaller.podLoop env ns deadline fuel t =
        .error operatorTimeoutMsg := by
  intro fuel
  induction fuel with
  | zero => intro t; right; rfl
  | succ fuel ih =>
    intro t
    simp only [OperatorInstaller.podLoop]
    by_cases hd : deadline ≤ t + 10
    · right; rw [if_pos hd]
    · rw [if_neg hd]
      cases hs : env.podStatus "control-plane=controller-manager" ns
          (t + 10) with
      | error e => exact ih (t + 10)
      | ok status =>
        show okB (if status = "Running"
            then (Except.ok (t + 10) : Except String Nat)
            else OperatorInstaller.podLoop env ns deadline fuel (t + 10)) =
            true ∨
          (if status = "Running"
            then (Except.ok (t + 10) : Except String Nat)
            else OperatorInstaller.podLoop env ns deadline fuel (t + 10)) =
            .error operatorTimeoutMsg
        by_cases hr : status = "Running"
        · rw [if_pos hr]; left; rfl
        · rw [if_neg hr]; exact ih (t + 10)

/-- C5: during polling, a check that fails with a transient API error on a
tick never aborts the loop — the database sub-wait retries on the next tick
after a failed existence or pod-status call, the extension pod poll retries
after a failed status call — and every polling loop (the four readiness
sub-waits and the extension pod poll) either succeeds or terminates with
exactly its deadline-timeout error. -/
theorem polling_transient_error_retries (env : ClusterEnv)
    (w ns : String) (deadline fuel t : Nat) :
    (∀ e, env.resourceExists ⟨"apps", "v1", "deployments",
        DeploymentWaiter.postgresDeployment w, ns⟩ (t + 30) = .error e →
      t + 30 < deadline →
      DeploymentWaiter.waitForPostgreSQLLoop env w ns deadline (fuel + 1) t =
        DeploymentWaiter.waitForPostgreSQLLoop env w ns deadline fuel (t + 30))
  ∧ (∀ e, env.resourceExists ⟨"apps", "v1", "deployments",
        DeploymentWaiter.postgresDeployment w, ns⟩ (t + 30) = .ok true →
      env.podStatus
        ("app.kubernetes.io/name=postgres,app.kubernetes.io/instance=" ++ w)
        ns (t + 30) = .error e →
      t + 30 < deadline →
      DeploymentWaiter.waitForPostgreSQLLoop env w ns deadline (fuel + 1) t =
        DeploymentWaiter.waitForPostgreSQLLoop env w ns deadline fuel (t + 30))
  ∧ (∀ e, env.podStatus "control-plane=controller-manager" ns (t + 10) =
        .error e →
      t + 10 < deadline →
      OperatorInstaller.podLoop env ns deadline (fuel + 1) t =
        OperatorInstaller.podLoop env ns deadline fuel (t + 10))
  ∧ (okB (DeploymentWaiter.waitForAWXInstanceLoop env w ns deadline fuel t)
        = true ∨
      DeploymentWaiter.waitForAWXInstanceLoop env w ns deadline fuel t =
        .error instanceTimeoutMsg)
  ∧ (okB (DeploymentWaiter.waitForPostgreSQLLoop env w ns deadline fuel t)
        = true ∨
      DeploymentWaiter.waitForPostgreSQLLoop env w ns deadline fuel t =
        .error postgresTimeoutMsg)
  ∧ (okB (DeploymentWaiter.waitForAWXWebLoop env w ns deadline fuel t)
        = true ∨
      DeploymentWaiter.waitForAWXWebLoop env w ns deadline fuel t =
        .error webTimeoutMsg)
  ∧ (okB (DeploymentWaiter.waitForAWXTaskLoop env w ns deadline fuel t)
        = true ∨
      DeploymentWaiter.waitForAWXTaskLoop env w ns deadline fuel t =
        .error taskTimeoutMsg)
  ∧ (okB (OperatorInstaller.podLoop env ns deadline fuel t) = true ∨
      OperatorInstaller.podLoop env ns deadline fuel t =
        .error operatorTimeoutMsg) := by
  refine ⟨?_, ?_, ?_, waitInstLoop_err env w ns deadline fuel t,
    waitPgLoop_err env w ns deadline fuel t,
    waitWebLoop_err env w ns deadline fuel t,
    waitTaskLoop_err env w ns deadline fuel t,
    waitOpLoop_err env ns deadline fuel t⟩
  · intro e he hlt
    simp only [DeploymentWaiter.waitForPostgreSQLLoop]
    rw [if_neg (by omega : ¬ deadline ≤ t + 30), he]
  · intro e hex hst hlt
    simp only [DeploymentWaiter.waitForPostgreSQLLoop]
    rw [if_neg (by omega : ¬ deadline ≤ t + 30), hex, hst]
  · intro e hst hlt
    simp only [OperatorInstaller.podLoop]
    rw [if_neg (by omega : ¬ deadline ≤ t + 10), hst]


/-- C10: no readiness sub-wait performs a store check before one full
30-second poll interval has elapsed — a sub-wait entered at local time t
can only succeed at a time at least t plus 30 — so each of the four
sequential sub-waits consumes at least one full interval and WaitForReady
cannot return success before 120 seconds have passed. -/
theorem subwait_first_check_after_full_interval (env : ClusterEnv)
    (w ns : String) (deadline fuel t : Nat) :
    (∀ r, DeploymentWaiter.waitForAWXInstanceLoop env w ns deadline fuel t =
        .ok r → t + 30 ≤ r)
  ∧ (∀ r, DeploymentWaiter.waitForPostgreSQLLoop env w ns deadline fuel t =
        .ok r → t + 30 ≤ r)
  ∧ (∀ r, DeploymentWaiter.waitForAWXWebLoop env w ns deadline fuel t =
        .ok r → t + 30 ≤ r)
  ∧ (∀ r, DeploymentWaiter.waitForAWXTaskLoop env w ns deadline fuel t =
        .ok r → t + 30 ≤ r)
  ∧ (∀ r, DeploymentWaiter.WaitForReady env w ns deadline = .ok r →
      120 ≤ r) := by
  refine ⟨waitInstLoop_lb env w ns deadline fuel t,
    waitPgLoop_lb env w ns deadline fuel t,
    waitWebLoop_lb env w ns deadline fuel t,
    waitTaskLoop_lb env w ns deadline fuel t, ?_⟩
  intro r h
  simp only [DeploymentWaiter.WaitForReady] at h
  cases h1 : DeploymentWaiter.waitForAWXInstance env w ns deadline 0 with
  | error e =>
    simp only [h1] at h
    exact absurd h (by simp)
  | ok t1 =>
    simp only [h1] at h
    have hb1 : 0 + 30 ≤ t1 := waitInstLoop_lb env w ns deadline _ 0 t1 h1
    cases h2 : DeploymentWaiter.waitForPostgreSQL env w ns deadline t1 with
    | error e =>
    simp only [h2] at h
    exact absurd h (by simp)
    | ok t2 =>
      simp only [h2] at h
      have hb2 : t1 + 30 ≤ t2 := waitPgLoop_lb env w ns deadline _ t1 t2 h2
      cases h3 : DeploymentWaiter.waitForAWXWeb env w ns deadline t2 with
      | error e =>
    simp only [h3] at h
    exact absurd h (by simp)
      | ok t3 =>
        simp only [h3] at h
        have hb3 : t2 + 30 ≤ t3 := waitWebLoop_lb env w ns deadline _ t2 t3 h3
        cases h4 : DeploymentWaiter.waitForAWXTask env w ns deadline t3 with
        | error e =>
    simp only [h4] at h
    exact absurd h (by simp)
        | ok t4 =>
          simp only [h4] at h
          have hb4 : t3 + 30 ≤ t4 :=
            waitTaskLoop_lb env w ns deadline _ t3 t4 h4
          injection h with h
          omega


/-- C4: WaitForReady runs its four sub-waits strictly in sequence — primary
custom resource, database tier, front-end tier, background-worker tier —
all against the one deadline derived from the timeout; it succeeds exactly
when the four sub-waits succeed in that order, and on failure its error
message names the tier whose sub-wait timed out, with every earlier
sub-wait having succeeded. -/
theorem waitForReady_four_subwaits_in_sequence (env : ClusterEnv)
    (w ns : String) (timeout : Nat) :
    ((∃ r, DeploymentWaiter.WaitForReady env w ns timeout = .ok r) ↔
      (∃ t1 t2 t3 t4,
        DeploymentWaiter.waitForAWXInstance env w ns timeout 0 = .ok t1 ∧
        DeploymentWaiter.waitForPostgreSQL env w ns timeout t1 = .ok t2 ∧
        DeploymentWaiter.waitForAWXWeb env w ns timeout t2 = .ok t3 ∧
        DeploymentWaiter.waitForAWXTask env w ns timeout t3 = .ok t4 ∧
        DeploymentWaiter.WaitForReady env w ns timeout = .ok t4))
  ∧ (∀ e, DeploymentWaiter.WaitForReady env w ns timeout = .error e →
      (DeploymentWaiter.waitForAWXInstance env w ns timeout 0 =
          .error instanceTimeoutMsg ∧
        e = "AWX instance not ready: " ++ instanceTimeoutMsg)
      ∨ (∃ t1,
          DeploymentWaiter.waitForAWXInstance env w ns timeout 0 = .ok t1 ∧
          DeploymentWaiter.waitForPostgreSQL env w ns timeout t1 =
            .error postgresTimeoutMsg ∧
          e = "PostgreSQL not ready: " ++ postgresTimeoutMsg)
      ∨ (∃ t1 t2,
          DeploymentWaiter.waitForAWXInstance env w ns timeout 0 = .ok t1 ∧
          DeploymentWaiter.waitForPostgreSQL env w ns timeout t1 = .ok t2 ∧
          DeploymentWaiter.waitForAWXWeb env w ns timeout t2 =
            .error webTimeoutMsg ∧
          e = "AWX web not ready: " ++ webTimeoutMsg)
      ∨ (∃ t1 t2 t3,
          DeploymentWaiter.waitForAWXInstance env w ns timeout 0 = .ok t1 ∧
          DeploymentWaiter.waitForPostgreSQL env w ns timeout t1 = .ok t2 ∧
          DeploymentWaiter.waitForAWXWeb env w ns timeout t2 = .ok t3 ∧
          DeploymentWaiter.waitForAWXTask env w ns timeout t3 =
            .error taskTimeoutMsg ∧
          e = "AWX task manager not ready: " ++ taskTimeoutMsg)) := by
  cases h1 : DeploymentWaiter.waitForAWXInstance env w ns timeout 0 with
  | error e1 =>
    have he1 : e1 = instanceTimeoutMsg := by
      have h1l : DeploymentWaiter.waitForAWXInstanceLoop env w ns timeout
          (timeout + 1) 0 = .error e1 := h1
      rcases waitInstLoop_err env w ns timeout (timeout + 1) 0 with hx | hx
      · rw [h1l] at hx
        simp [okB] at hx
      · rw [h1l] at hx
        injection hx with hx
    subst he1
    constructor
    · constructor
      · rintro ⟨r, hr⟩
        simp only [DeploymentWaiter.WaitForReady, h1] at hr
        exact absurd hr (by simp)
      · rintro ⟨t1, t2, t3, t4, hh1, -⟩
        cases hh1
    · intro e he
      simp only [DeploymentWaiter.WaitForReady, h1] at he
      injection he with he
      exact Or.inl ⟨rfl, he.symm⟩
  | ok t1 =>
    cases h2 : DeploymentWaiter.waitForPostgreSQL env w ns timeout t1 with
    | error e2 =>
      have he2 : e2 = postgresTimeoutMsg := by
        have h2l : DeploymentWaiter.waitForPostgreSQLLoop env w ns timeout
            (timeout + 1) t1 = .error e2 := h2
        rcases waitPgLoop_err env w ns timeout (timeout + 1) t1 with hx | hx
        · rw [h2l] at hx
          simp [okB] at hx
        · rw [h2l] at hx
          injection hx with hx
      subst he2
      constructor
      · constructor
        · rintro ⟨r, hr⟩
          simp only [DeploymentWaiter.WaitForReady, h1, h2] at hr
          exact absurd hr (by simp)
        · rintro ⟨u1, u2, u3, u4, hh1, hh2, -⟩
          injection hh1 with hh1
          subst hh1
          rw [h2] at hh2
          cases hh2
      · intro e he
        simp only [DeploymentWaiter.WaitForReady, h1, h2] at he
        injection he with he
        exact Or.inr (Or.inl ⟨t1, rfl, h2, he.symm⟩)
    | ok t2 =>
      cases h3 : DeploymentWaiter.waitForAWXWeb env w ns timeout t2 with
      | error e3 =>
        have he3 : e3 = webTimeoutMsg := by
          have h3l : DeploymentWaiter.waitForAWXWebLoop env w ns timeout
              (timeout + 1) t2 = .error e3 := h3
          rcases waitWebLoop_err env w ns timeout (timeout + 1) t2 with
            hx | hx
          · rw [h3l] at hx
            simp [okB] at hx
          · rw [h3l] at hx
            injection hx with hx
        subst he3
        constructor
        · constructor
          · rintro ⟨r, hr⟩
            simp only [DeploymentWaiter.WaitForReady, h1, h2, h3] at hr
            exact absurd hr (by simp)
          · rintro ⟨u1, u2, u3, u4, hh1, hh2, hh3, -⟩
            injection hh1 with hh1
            subst hh1
            rw [h2] at hh2
            injection hh2 with hh2
            subst hh2
            rw [h3] at hh3
            cases hh3
        · intro e he
          simp only [DeploymentWaiter.WaitForReady, h1, h2, h3] at he
          injection he with he
          exact Or.inr (Or.inr (Or.inl ⟨t1, t2, rfl, h2, h3, he.symm⟩))
      | ok t3 =>
        cases h4 : DeploymentWaiter.waitForAWXTask env w ns timeout t3 with
        | error e4 =>
          have he4 : e4 = taskTimeoutMsg := by
            have h4l : DeploymentWaiter.waitForAWXTaskLoop env w ns timeout
                (timeout + 1) t3 = .error e4 := h4
            rcases waitTaskLoop_err env w ns timeout (timeout + 1) t3 with
              hx | hx
            · rw [h4l] at hx
              simp [okB] at hx
            · rw [h4l] at hx
              injection hx with hx
          subst he4
          constructor
          · constructor
            · rintro ⟨r, hr⟩
              simp only [DeploymentWaiter.WaitForReady, h1, h2, h3, h4] at hr
              exact absurd hr (by simp)
            · rintro ⟨u1, u2, u3, u4, hh1, hh2, hh3, hh4, -⟩
              injection hh1 with hh1
              subst hh1
              rw [h2] at hh2
              injection hh2 with hh2
              subst hh2
              rw [h3] at hh3
              injection hh3 with hh3
              subst hh3
              rw [h4] at hh4
              cases hh4
          · intro e he
            simp only [DeploymentWaiter.WaitForReady, h1, h2, h3, h4] at he
            injection he with he
            exact Or.inr (Or.inr (Or.inr
              ⟨t1, t2, t3, rfl, h2, h3, h4, he.symm⟩))
        | ok t4 =>
          constructor
          · constructor
            · intro hex2
              exact ⟨t1, t2, t3, t4, rfl, h2, h3, h4,
                by simp only [DeploymentWaiter.WaitForReady, h1, h2, h3, h4]⟩
            · rintro ⟨u1, u2, u3, u4, -, -, -, -, hh⟩
              exact ⟨u4, hh⟩
          · intro e he
            simp only [DeploymentWaiter.WaitForReady, h1, h2, h3, h4] at he
            exact absurd he (by simp)

theorem applySeq_ok_all (applyFile : String → Except String Unit) :
    ∀ l, (∀ g ∈ l, okB (applyFile g) = true) →
      ManifestApplier.applySeq applyFile l = (.ok (), l) := by
  intro l
  induction l with
  | nil => intro _; rfl
  | cons g rest ih =>
    intro hok
    cases hg : applyFile g with
    | error e =>
      have := hok g (List.mem_cons_self g rest)
      rw [hg] at this
      exact absurd this (by simp [okB])
    | ok u =>
      cases u
      simp only [ManifestApplier.applySeq, hg,
        ih (fun x hx => hok x (List.mem_cons_of_mem g hx))]

theorem applySeq_fail (applyFile : String → Except String Unit)
    (pre post : List String) (f e : String)
    (hpre : ∀ g ∈ pre, okB (applyFile g) = true)
    (hf : applyFile f = .error e) :
    ManifestApplier.applySeq applyFile (pre ++ f :: post) =
      (.error ("failed to apply manifest " ++ f ++ ": " ++ e), pre ++ [f]) := by
  induction pre with
  | nil => simp [ManifestApplier.applySeq, hf]
  | cons g pre ih =>
    cases hg : applyFile g with
    | error e2 =>
      have := hpre g (List.mem_cons_self g pre)
      rw [hg] at this
      exact absurd this (by simp [okB])
    | ok u =>
      cases u
      simp only [List.cons_append, ManifestApplier.applySeq, hg,
        List.append_eq]
      rw [ih (fun x hx => hpre x (List.mem_cons_of_mem g hx))]


/-- C3: for a non-empty discovered manifest set, applyAll sorts the file
names lexicographically and submits them one by one in that order; on the
first failing apply it aborts with an error naming the failing document,
the submission trace is exactly the successful sorted prefix followed by
the failing document, and no document after the failing one in the sorted
order is ever submitted; the processed order is the sorted permutation of
the discovered files, hence identical across runs on an unchanged
directory. -/
theorem manifest_apply_sorted_fail_fast
    (applyFile : String → Except String Unit)
    (files pre post : List String) (f e : String)
    (hne : files ≠ [])
    (hnd : files.Nodup)
    (hdec : ManifestApplier.sortFiles files = pre ++ f :: post)
    (hpre : ∀ g ∈ pre, okB (applyFile g) = true)
    (hf : applyFile f = .error e) :
    (ManifestApplier.Apply applyFile files).2 = pre ++ [f]
  ∧ (ManifestApplier.Apply applyFile files).1 =
      .error ("failed to apply manifest " ++ f ++ ": " ++ e)
  ∧ (∀ g ∈ post, g ∉ (ManifestApplier.Apply applyFile files).2)
  ∧ List.Sorted (fun a b => ManifestApplier.fileLe a b = true)
      (ManifestApplier.sortFiles files)
  ∧ (ManifestApplier.sortFiles files).Perm files := by
  have hie : files.isEmpty = false := by
    cases files with
    | nil => exact absurd rfl hne
    | cons a l => rfl
  have happ : ManifestApplier.Apply applyFile files =
      (.error ("failed to apply manifest " ++ f ++ ": " ++ e), pre ++ [f]) := by
    unfold ManifestApplier.Apply
    rw [hie]
    simp only [Bool.false_eq_true, if_false, hdec]
    exact applySeq_fail applyFile pre post f e hpre hf
  have hperm : (ManifestApplier.sortFiles files).Perm files :=
    List.perm_insertionSort _ files
  have hsortnd : (ManifestApplier.sortFiles files).Nodup :=
    hperm.nodup_iff.mpr hnd
  refine ⟨by rw [happ], by rw [happ], ?_, ?_, hperm⟩
  · intro g hg
    rw [happ]
    rw [hdec] at hsortnd
    rw [List.nodup_append] at hsortnd
    obtain ⟨hnp, hnc, hdisj⟩ := hsortnd
    have hgf : g ≠ f := by
      intro hgf
      subst hgf
      exact (List.nodup_cons.mp hnc).1 hg
    have hgpre : g ∉ pre := by
      intro hgpre
      exact hdisj hgpre (List.mem_cons_of_mem f hg)
    intro hmem
    rcases List.mem_append.mp hmem with hx | hx
    · exact hgpre hx
    · exact hgf (List.mem_singleton.mp hx)
  · exact List.sorted_insertionSort _ files

/-- A per-file apply outcome used by the witness run: every manifest applies
cleanly except b.yaml. -/
def wApplyFile : String → Except String Unit := fun g =>
  if g = "b.yaml" then .error "boom" else .ok ()

theorem manifest_apply_sorted_fail_fast_witness :
    (["c.yaml", "a.yaml", "b.yaml"] : List String) ≠ []
  ∧ (["c.yaml", "a.yaml", "b.yaml"] : List String).Nodup
  ∧ ManifestApplier.sortFiles ["c.yaml", "a.yaml", "b.yaml"] =
      ["a.yaml"] ++ "b.yaml" :: ["c.yaml"]
  ∧ (∀ g ∈ (["a.yaml"] : List String), okB (wApplyFile g) = true)
  ∧ wApplyFile "b.yaml" = .error "boom"
  ∧ ((ManifestApplier.Apply wApplyFile ["c.yaml", "a.yaml", "b.yaml"]).2 =
        ["a.yaml"] ++ ["b.yaml"]
    ∧ (ManifestApplier.Apply wApplyFile ["c.yaml", "a.yaml", "b.yaml"]).1 =
        .error ("failed to apply manifest " ++ "b.yaml" ++ ": " ++ "boom")
    ∧ (∀ g ∈ (["c.yaml"] : List String),
        g ∉ (ManifestApplier.Apply wApplyFile
          ["c.yaml", "a.yaml", "b.yaml"]).2)
    ∧ List.Sorted (fun a b => ManifestApplier.fileLe a b = true)
        (ManifestApplier.sortFiles ["c.yaml", "a.yaml", "b.yaml"])
    ∧ (ManifestApplier.sortFiles ["c.yaml", "a.yaml", "b.yaml"]).Perm
        ["c.yaml", "a.yaml", "b.yaml"]) :=
  ⟨by decide, by decide, rfl, by decide, rfl,
    manifest_apply_sorted_fail_fast wApplyFile
      ["c.yaml", "a.yaml", "b.yaml"] ["a.yaml"] ["c.yaml"] "b.yaml" "boom"
      (by decide) (by decide) rfl (by decide) rfl⟩
